import Mathlib

/-!
Verification development for the SGA Web planning backend
(`backend/main.py`). The shift-resolution engine, the statistics
aggregator and the leave applier are embedded shallowly: the SQLite
tables become Lean lists, ISO date strings become year/month/day
triples (string comparison on ISO dates coincides with calendar
order, and equality of keys coincides with equality of triples), and
every endpoint body is translated into a pure function on an explicit
database state. Fallible endpoints return `Except`.
-/

set_option maxRecDepth 4000

/-! ## Calendar arithmetic

Models the parts of `datetime.date` the backend uses: subtraction in
days, `weekday()` (Monday = 0 .. Sunday = 6), `isocalendar()[1]` (ISO
week number), adding one day, and `calendar.monthrange` (number of
days in a month). Dates are triples; `toDays` is the standard
days-from-civil bijection (day count since 0000-03-01 of the
proleptic Gregorian calendar).
-/

/-- Model of a `datetime.date` value / an ISO `YYYY-MM-DD` string. -/
structure PyDate where
  year : Nat
  month : Nat
  day : Nat
deriving DecidableEq, Repr

/-- Day count of a civil date since 0000-03-01, Howard Hinnant style. -/
def toDays (d : PyDate) : Nat :=
  let y := if d.month ≤ 2 then d.year - 1 else d.year
  let era := y / 400
  let yoe := y % 400
  let mp := (d.month + 9) % 12
  let doy := (153 * mp + 2) / 5 + d.day - 1
  let doe := yoe * 365 + yoe / 4 - yoe / 100 + doy
  era * 146097 + doe

/-- Inverse of `toDays`: the civil date of a day count. -/
def fromDays (z : Nat) : PyDate :=
  let era := z / 146097
  let doe := z % 146097
  let yoe := (doe - doe / 1460 + doe / 36524 - doe / 146096) / 365
  let y := yoe + era * 400
  let doy := doe - (365 * yoe + yoe / 4 - yoe / 100)
  let mp := (5 * doy + 2) / 153
  let d := doy - (153 * mp + 2) / 5 + 1
  let m := if mp < 10 then mp + 3 else mp - 9
  ⟨if m ≤ 2 then y + 1 else y, m, d⟩

/-- Model of `some_date + timedelta(days=n)`. -/
def addDays (d : PyDate) (n : Nat) : PyDate :=
  fromDays (toDays d + n)

/-- Model of `(b - a).days` on two `datetime.date` values. -/
def daysBetween (a b : PyDate) : Int :=
  (toDays b : Int) - (toDays a : Int)

/-- Model of Python `date.weekday()`: Monday = 0 .. Sunday = 6.
Day 0 (0000-03-01) falls on a Wednesday, hence the offset 2. -/
def pyWeekday (d : PyDate) : Nat :=
  (toDays d + 2) % 7

/-- Calendar order on dates; models `<=` on `datetime.date` values and
the `BETWEEN` comparison on their ISO strings. -/
def dateLe (a b : PyDate) : Bool :=
  toDays a ≤ toDays b

/-- Strict calendar order on dates, models `<` / `>` on dates. -/
def dateLt (a b : PyDate) : Bool :=
  toDays a < toDays b

/-- Ordinal of a date inside its year (Jan 1 is 1). -/
def dayOfYear (d : PyDate) : Nat :=
  toDays d - toDays ⟨d.year, 1, 1⟩ + 1

/-- Number of ISO weeks of a year (52 or 53). -/
def isoWeeksInYear (y : Nat) : Nat :=
  let p := fun (yy : Nat) => (yy + yy / 4 - yy / 100 + yy / 400) % 7
  if p y = 4 ∨ p (y - 1) = 3 then 53 else 52

/-- Model of Python `date.isocalendar()[1]`, the ISO week number. -/
def isoWeek (d : PyDate) : Nat :=
  let wd := pyWeekday d + 1
  let w := (dayOfYear d + 10 - wd) / 7
  if w = 0 then isoWeeksInYear (d.year - 1)
  else if w = 53 ∧ isoWeeksInYear d.year = 52 then 1
  else w

/-- Model of `calendar.isleap`. -/
def estBissextile (annee : Nat) : Bool :=
  annee % 4 = 0 && (annee % 100 ≠ 0 || annee % 400 = 0)

/-- Model of `calendar.monthrange(annee, mois)[1]` for a valid month. -/
def joursMois (annee mois : Nat) : Nat :=
  if mois = 2 then (if estBissextile annee then 29 else 28)
  else if mois = 4 ∨ mois = 6 ∨ mois = 9 ∨ mois = 11 then 30
  else 31

/-! ## Strings and data model -/

/-- Model of Python `str.upper()` on the ASCII identifiers and symbols
the backend handles. -/
def strUpper (s : String) : String :=
  String.mk (s.data.map Char.toUpper)

/-- Row of the `agents` table. -/
structure Agent where
  code : String
  nom : String
  prenom : String
  code_groupe : String
  date_entree : PyDate
  date_sortie : Option PyDate
  statut : String
deriving DecidableEq, Repr

/-- Row of the `planning` table (a ShiftRecord), keyed by
(`code_agent`, `date`). -/
structure ShiftRecord where
  code_agent : String
  date : PyDate
  shift : String
  origine : String
deriving DecidableEq, Repr

/-- Row of the `conges_periode` table (a LeavePeriod). -/
structure Conge where
  code_agent : String
  date_debut : PyDate
  date_fin : PyDate
  date_creation : PyDate
deriving DecidableEq, Repr

/-- The database state: the tables the planning engine touches. The
`description` column of `jours_feries` is never read, so the table is
kept as its set of dates. -/
structure DB where
  agents : List Agent
  planning : List ShiftRecord
  jours_feries : List PyDate
  conges_periode : List Conge
deriving DecidableEq, Repr

/-- Model of `SELECT ... FROM planning WHERE code_agent = ? AND date = ?`
(at most one row, by the primary key). -/
def lookupPlanning (p : List ShiftRecord) (a : String) (d : PyDate) : Option ShiftRecord :=
  p.find? (fun r => r.code_agent == a && r.date == d)

/-- Model of `INSERT OR REPLACE INTO planning` keyed by
(`code_agent`, `date`). -/
def upsertPlanning (p : List ShiftRecord) (a : String) (d : PyDate) (s o : String) :
    List ShiftRecord :=
  p.filter (fun r => !(r.code_agent == a && r.date == d)) ++ [⟨a, d, s, o⟩]

/-- Model of `SELECT ... FROM agents WHERE code = ?` (primary key). -/
def findAgent (db : DB) (code : String) : Option Agent :=
  db.agents.find? (fun a => a.code == code)

/-! ## RotationCalculator -/

/-- Embeds `_cycle_standard_8j`: the fixed 8-day pattern indexed by
`jour_cycle % 8`. Python `%` on a possibly negative left operand is
`Int.emod`; the resulting index is below 8 so the `getD` default is
never reached. -/
def cycle_standard_8j (jour_cycle : Int) : String :=
  (["1", "1", "2", "2", "3", "3", "R", "R"] : List String).getD ((jour_cycle % 8).toNat) "R"

/-- Embeds `_get_decalage_standard`: the per-group phase offset. -/
def get_decalage_standard (code_groupe : String) : Nat :=
  match strUpper code_groupe with
  | "A" => 0
  | "B" => 2
  | "C" => 4
  | "D" => 6
  | _ => 0

/-- Model of Python `list.index` wrapped in try/except: position of the
first occurrence, `none` when absent. -/
def listIndex (l : List String) (x : String) : Option Nat :=
  match l with
  | [] => none
  | y :: ys => if y = x then some 0 else (listIndex ys x).map (· + 1)

/-- Character-list comparison by code points; models the SQL `ORDER BY`
text order on the ASCII agent codes. -/
def charListLt : List Char → List Char → Bool
  | [], [] => false
  | [], _ :: _ => true
  | _ :: _, [] => false
  | a :: as, b :: bs =>
    if a.toNat < b.toNat then true
    else if b.toNat < a.toNat then false
    else charListLt as bs

/-- String comparison for the model of SQL `ORDER BY`. -/
def strLt (a b : String) : Bool := charListLt a.data b.data

/-- Insertion step for the model of SQL `ORDER BY code`. -/
def insertSorted (x : String) : List String → List String
  | [] => [x]
  | y :: ys => if strLt x y then x :: y :: ys else y :: insertSorted x ys

/-- Model of SQL `ORDER BY code` on a list of codes. -/
def sortCodes (l : List String) : List String :=
  l.foldr insertSorted []

/-- Model of
`SELECT code FROM agents WHERE code_groupe='E' AND date_sortie IS NULL ORDER BY code`. -/
def groupeEActifs (db : DB) : List String :=
  sortCodes ((db.agents.filter
    (fun a => a.code_groupe == "E" && a.date_sortie == none)).map (·.code))

/-- Embeds `_cycle_c_diff`: the special rotation for group E. -/
def cycle_c_diff (jour_date : PyDate) (code_agent : String) (db : DB) : String :=
  let jour_semaine := pyWeekday jour_date
  if 5 ≤ jour_semaine then "R"
  else
    let agents_du_groupe := groupeEActifs db
    match listIndex agents_du_groupe code_agent with
    | none => "R"
    | some index_agent =>
      let num_semaine := isoWeek jour_date
      let jour_pair := jour_semaine % 2 = 0
      if index_agent = 0 then
        if num_semaine % 2 ≠ 0 then (if jour_pair then "1" else "2")
        else (if jour_pair then "2" else "1")
      else if index_agent = 1 then
        if num_semaine % 2 ≠ 0 then (if jour_pair then "2" else "1")
        else (if jour_pair then "1" else "2")
      else if (index_agent + num_semaine) % 2 = 0 then "1" else "2"

/-! ## HolidayOracle -/

/-- The fixed (month, day) national holiday set of `_est_jour_ferie`. -/
def jours_feries_fixes : List (Nat × Nat) :=
  [(1, 1), (1, 11), (5, 1), (7, 30), (8, 14), (8, 20), (8, 21), (11, 6), (11, 18)]

/-- Embeds `_est_jour_ferie`: override table first, then the fixed
(month, day) set. Dates in the model are always well formed, so the
`except` branch returning `False` on a parse error does not arise. -/
def est_jour_ferie (db : DB) (d : PyDate) : Bool :=
  if db.jours_feries.any (fun jf => jf == d) then true
  else (d.month, d.day) ∈ jours_feries_fixes

/-! ## ShiftResolver -/

/-- Embeds `_get_shift_theorique`. -/
def get_shift_theorique (db : DB) (code_agent : String) (jour_date : PyDate) : String :=
  match findAgent db code_agent with
  | none => "-"
  | some ag =>
    if ag.code_groupe = "E" then cycle_c_diff jour_date code_agent db
    else if ag.code_groupe ∈ (["A", "B", "C", "D"] : List String) then
      let delta_jours := daysBetween ag.date_entree jour_date
      let decalage := get_decalage_standard ag.code_groupe
      cycle_standard_8j (delta_jours + decalage)
    else "R"

/-- Embeds `_get_shift_effectif`: returns the shift together with the
database state after the write-through cache fill. -/
def get_shift_effectif (db : DB) (code_agent : String) (d : PyDate) : String × DB :=
  match lookupPlanning db.planning code_agent d with
  | some r => (r.shift, db)
  | none =>
    let shift_theorique := get_shift_theorique db code_agent d
    if shift_theorique ≠ "-" then
      (shift_theorique,
       { db with planning := upsertPlanning db.planning code_agent d shift_theorique "THEORIQUE" })
    else (shift_theorique, db)

/-- Embeds the `modifier_shift` endpoint (`POST /api/planning/modifier`):
an `HTTPException` before any write becomes `Except.error`. -/
def modifier_shift (db : DB) (code_agent : String) (d : PyDate) (shift : String) :
    Except String DB :=
  if strUpper shift ∉ (["1", "2", "3", "R", "C", "M", "A"] : List String) then
    Except.error "Shift invalide"
  else
    match findAgent db (strUpper code_agent) with
    | none => Except.error "Agent non trouve"
    | some _ =>
      Except.ok { db with
        planning := upsertPlanning db.planning (strUpper code_agent) d (strUpper shift) "MANUEL" }

/-- Embeds the `enregistrer_absence` endpoint (`POST /api/planning/absence`). -/
def enregistrer_absence (db : DB) (code_agent : String) (d : PyDate) (type_absence : String) :
    Except String DB :=
  if strUpper type_absence ∉ (["C", "M", "A"] : List String) then
    Except.error "Type absence invalide"
  else
    match findAgent db (strUpper code_agent) with
    | none => Except.error "Agent non trouve"
    | some _ =>
      Except.ok { db with
        planning := upsertPlanning db.planning (strUpper code_agent) d (strUpper type_absence)
          "ABSENCE" }

/-! ## StatisticsAggregator -/

/-- The shift counters dictionary of `_calculer_stats_agent`, one field
per key of `{'1','2','3','R','C','M','A','-'}`. -/
structure Stats where
  s1 : Nat
  s2 : Nat
  s3 : Nat
  sR : Nat
  sC : Nat
  sM : Nat
  sA : Nat
  sDash : Nat
deriving DecidableEq, Repr

/-- The zero-initialised counters dictionary. -/
def statsInit : Stats := ⟨0, 0, 0, 0, 0, 0, 0, 0⟩

/-- The key set of the counters dictionary. -/
def statKeys : List String := ["1", "2", "3", "R", "C", "M", "A", "-"]

/-- Model of `stats[shift] += 1` (identity outside the key set, which
mirrors the `if shift in stats` guard together with `bump`). -/
def bump (s : Stats) (x : String) : Stats :=
  if x = "1" then { s with s1 := s.s1 + 1 }
  else if x = "2" then { s with s2 := s.s2 + 1 }
  else if x = "3" then { s with s3 := s.s3 + 1 }
  else if x = "R" then { s with sR := s.sR + 1 }
  else if x = "C" then { s with sC := s.sC + 1 }
  else if x = "M" then { s with sM := s.sM + 1 }
  else if x = "A" then { s with sA := s.sA + 1 }
  else if x = "-" then { s with sDash := s.sDash + 1 }
  else s

/-- Loop body of `_calculer_stats_agent` over the fetched planning rows:
counter increment plus the nested holiday-worked increment. -/
def statsStep (db : DB) (acc : Stats × Nat) (r : ShiftRecord) : Stats × Nat :=
  if r.shift ∈ statKeys then
    (bump acc.1 r.shift,
     if r.shift ∈ (["1", "2", "3"] : List String) ∧ est_jour_ferie db r.date then acc.2 + 1
     else acc.2)
  else acc

/-- Model of
`SELECT shift, date FROM planning WHERE code_agent = ? AND date BETWEEN ? AND ?`
for the month range of `_calculer_stats_agent`. -/
def statsRows (db : DB) (code_agent : String) (mois annee : Nat) : List ShiftRecord :=
  db.planning.filter (fun r =>
    r.code_agent == code_agent
      && dateLe ⟨annee, mois, 1⟩ r.date
      && dateLe r.date ⟨annee, mois, joursMois annee mois⟩)

/-- Return value of `_calculer_stats_agent`. -/
structure StatsResult where
  stats : Stats
  feries_travailles : Nat
  total_shifts : Nat
  total_operationnels : Nat
  groupe : Option String
deriving DecidableEq, Repr

/-- Body of `_calculer_stats_agent` for a valid month. -/
def calculer_stats_agent_core (db : DB) (code_agent : String) (mois annee : Nat) :
    StatsResult :=
  let code_groupe := (findAgent db code_agent).map (·.code_groupe)
  let res := (statsRows db code_agent mois annee).foldl (statsStep db) (statsInit, 0)
  let total_shifts := res.1.s1 + res.1.s2 + res.1.s3
  { stats := res.1,
    feries_travailles := res.2,
    total_shifts := total_shifts,
    total_operationnels :=
      if code_groupe = some "E" then total_shifts else total_shifts + res.2,
    groupe := code_groupe }

/-- Embeds `_calculer_stats_agent`. A month outside 1..12 makes
`calendar.monthrange` (and `date(annee, mois, 1)`) raise, modelled as
`Except.error`; otherwise the computation is total. -/
def calculer_stats_agent (db : DB) (code_agent : String) (mois annee : Nat) :
    Except String StatsResult :=
  if 1 ≤ mois ∧ mois ≤ 12 then Except.ok (calculer_stats_agent_core db code_agent mois annee)
  else Except.error "mois invalide"

/-- Sum of the eight per-symbol counters. -/
def sumStats (s : Stats) : Nat :=
  s.s1 + s.s2 + s.s3 + s.sR + s.sC + s.sM + s.sA + s.sDash

/-- Pointwise sum of two counter dictionaries. -/
def addStats (a b : Stats) : Stats :=
  ⟨a.s1 + b.s1, a.s2 + b.s2, a.s3 + b.s3, a.sR + b.sR,
   a.sC + b.sC, a.sM + b.sM, a.sA + b.sA, a.sDash + b.sDash⟩

/-- Accumulator of the `get_stats_global` aggregation loop. -/
structure GlobalTotals where
  stats_globales : Stats
  total_feries : Nat
  total_operationnels : Nat
deriving DecidableEq, Repr

/-- Model of `SELECT code FROM agents WHERE date_sortie IS NULL`. -/
def activeAgents (db : DB) : List String :=
  (db.agents.filter (fun a => a.date_sortie == none)).map (·.code)

/-- The aggregation loop of the `get_stats_global` endpoint. The
per-agent computation is a parameter of type `Except`, the view the
`try`/`except: continue` block has of `_calculer_stats_agent` run
against the fallible store: an error for one agent skips that agent
and the loop carries on. -/
def statsGlobalAux (f : String → Except String StatsResult) (agents : List String) :
    GlobalTotals :=
  agents.foldl (fun acc a =>
    match f a with
    | Except.ok r =>
      { stats_globales := addStats acc.stats_globales r.stats,
        total_feries := acc.total_feries + r.feries_travailles,
        total_operationnels := acc.total_operationnels + r.total_operationnels }
    | Except.error _ => acc) ⟨statsInit, 0, 0⟩

/-- Embeds the aggregation of `GET /api/stats/global/{mois}/{annee}`. -/
def get_stats_global (db : DB) (mois annee : Nat) : GlobalTotals :=
  statsGlobalAux (fun a => calculer_stats_agent db a mois annee) (activeAgents db)

/-! ## PeriodLeaveApplier -/

/-- Return value of `ajouter_conge`: the new state plus the two counts
in its response body. -/
structure CongeResult where
  db : DB
  jours_conges : Nat
  duree_totale : Nat
deriving DecidableEq, Repr

/-- The dates the `while current_date <= fin_obj` loop of
`ajouter_conge` visits: `debut`, `debut + 1 day`, ..., `fin` — one date
per day of the inclusive span. -/
def leaveRange (debut fin : PyDate) : List PyDate :=
  (List.range ((daysBetween debut fin).toNat + 1)).map (fun i => addDays debut i)

/-- One iteration of the leave loop: the Sunday rule plus the
`jours_conges` counter. -/
def congeStep (code : String) (acc : List ShiftRecord × Nat) (d : PyDate) :
    List ShiftRecord × Nat :=
  if pyWeekday d = 6 then
    (upsertPlanning acc.1 code d "R" "CONGE_DIMANCHE", acc.2)
  else
    (upsertPlanning acc.1 code d "C" "CONGE_PERIODE", acc.2 + 1)

/-- Embeds the `ajouter_conge` endpoint (`POST /api/conges`). The
creation timestamp `date.today()` is passed in explicitly. -/
def ajouter_conge (db : DB) (code_agent : String) (date_debut date_fin date_creation : PyDate) :
    Except String CongeResult :=
  let code := strUpper code_agent
  match findAgent db code with
  | none => Except.error "Agent non trouve"
  | some _ =>
    if dateLt date_fin date_debut then Except.error "Date debut > Date fin"
    else
      let res := (leaveRange date_debut date_fin).foldl (congeStep code) (db.planning, 0)
      Except.ok
        { db := { db with
            conges_periode := db.conges_periode ++ [⟨code, date_debut, date_fin, date_creation⟩],
            planning := res.1 },
          jours_conges := res.2,
          duree_totale := (daysBetween date_debut date_fin).toNat + 1 }

/-! ## Agent enrollment -/

/-- The constant `DATE_AFFECTATION_BASE = "2025-11-01"`. -/
def DATE_AFFECTATION_BASE : PyDate := ⟨2025, 11, 1⟩

/-- The `AgentCreate` request model: the caller supplies no entry
date (the Pydantic model has no such field). -/
structure AgentCreate where
  code : String
  nom : String
  prenom : String
  code_groupe : String
deriving DecidableEq, Repr

/-- Embeds the `create_agent` endpoint (`POST /api/agents`): the new
row always gets `DATE_AFFECTATION_BASE` as entry date, no exit date and
the schema default status. -/
def create_agent (db : DB) (agent : AgentCreate) : Except String DB :=
  match findAgent db (strUpper agent.code) with
  | some _ => Except.error "existe deja"
  | none =>
    Except.ok { db with agents := db.agents ++
      [⟨strUpper agent.code, agent.nom, agent.prenom, strUpper agent.code_groupe,
        DATE_AFFECTATION_BASE, none, "actif"⟩] }

/-- One row of the `import_excel` loop, after the cell extraction
(`str(...).strip()`): validation, then update-or-insert. The returned
flag tells whether the row was imported (`True`) or ignored. -/
def import_excel_row (db : DB) (code nom prenom groupe : String) : DB × Bool :=
  let c := strUpper code
  let g := strUpper groupe
  if c = "" ∨ nom = "" ∨ prenom = "" ∨ g ∉ (["A", "B", "C", "D", "E"] : List String) then
    (db, false)
  else
    match findAgent db c with
    | some _ =>
      ({ db with agents := db.agents.map (fun a =>
          if a.code == c then
            { a with nom := nom, prenom := prenom, code_groupe := g, date_sortie := none }
          else a) }, true)
    | none =>
      ({ db with agents := db.agents ++
          [⟨c, nom, prenom, g, DATE_AFFECTATION_BASE, none, "actif"⟩] }, true)

/-! ## Concrete states used to exercise the theorems -/

/-- Sample agent of group A with the base entry date. -/
def agentA1 : Agent := ⟨"AG1", "Alpha", "Un", "A", DATE_AFFECTATION_BASE, none, "actif"⟩

/-- Sample agent of group B with the base entry date. -/
def agentB1 : Agent := ⟨"BG1", "Beta", "Deux", "B", DATE_AFFECTATION_BASE, none, "actif"⟩

/-- Sample first-ranked agent of group E. -/
def agentE1 : Agent := ⟨"EA1", "Echo", "Un", "E", DATE_AFFECTATION_BASE, none, "actif"⟩

/-- Sample second-ranked agent of group E. -/
def agentE2 : Agent := ⟨"EB2", "Echo", "Deux", "E", DATE_AFFECTATION_BASE, none, "actif"⟩

/-- Sample database: four agents, an empty planning table. -/
def dbSample : DB := ⟨[agentA1, agentB1, agentE1, agentE2], [], [], []⟩

/-- Sample database with one manually recorded absence. -/
def dbRec : DB :=
  { dbSample with planning := [⟨"AG1", ⟨2025, 11, 5⟩, "M", "ABSENCE"⟩] }

/-- Invariant on the planning table: every stored symbol is one of the
seven persistable symbols — the unresolved symbol never appears. -/
def planningValide (p : List ShiftRecord) : Prop :=
  ∀ r ∈ p, r.shift ∈ (["1", "2", "3", "R", "C", "M", "A"] : List String)

/-- Concrete per-agent statistics value used to exercise the global
aggregation. -/
def stats0 : StatsResult := ⟨⟨1, 0, 0, 0, 0, 0, 0, 0⟩, 0, 1, 1, some "A"⟩

/-- Concrete per-agent statistics computation with one failing agent,
modelling a storage failure for that agent during aggregation. -/
def f0 : String → Except String StatsResult :=
  fun s => if s = "BAD" then Except.error "panne" else Except.ok stats0

/-! ## Lemmas on the planning store -/

theorem find?_filter_of_imp {α : Type} (p q : α → Bool) (l : List α)
    (h : ∀ x, p x = true → q x = true) :
    (l.filter q).find? p = l.find? p := by
  induction l with
  | nil => rfl
  | cons x xs ih =>
    by_cases hq : q x = true
    · rw [List.filter_cons_of_pos hq]
      by_cases hp : p x = true
      · rw [List.find?_cons_of_pos _ hp, List.find?_cons_of_pos _ hp]
      · rw [List.find?_cons_of_neg _ hp, List.find?_cons_of_neg _ hp, ih]
    · rw [List.filter_cons_of_neg hq]
      have hp : ¬ p x = true := fun hp => hq (h x hp)
      rw [ih, List.find?_cons_of_neg _ hp]

theorem lookupPlanning_upsert_self (p : List ShiftRecord) (a : String) (d : PyDate)
    (s o : String) :
    lookupPlanning (upsertPlanning p a d s o) a d = some ⟨a, d, s, o⟩ := by
  unfold lookupPlanning upsertPlanning
  rw [List.find?_append]
  have h1 : (p.filter (fun r => !(r.code_agent == a && r.date == d))).find?
      (fun r => r.code_agent == a && r.date == d) = none := by
    rw [List.find?_eq_none]
    intro x hx h
    have h2 := (List.mem_filter.mp hx).2
    rw [h] at h2
    simp at h2
  rw [h1]
  simp [List.find?]

theorem lookupPlanning_upsert_ne (p : List ShiftRecord) (a a' : String) (d d' : PyDate)
    (s o : String) (h : a ≠ a' ∨ d ≠ d') :
    lookupPlanning (upsertPlanning p a' d' s o) a d = lookupPlanning p a d := by
  unfold lookupPlanning upsertPlanning
  rw [List.find?_append, find?_filter_of_imp]
  · have h1 : (([(⟨a', d', s, o⟩ : ShiftRecord)]).find?
        (fun r => r.code_agent == a && r.date == d)) = none := by
      rw [List.find?_eq_none]
      intro x hx hp
      simp at hx
      subst hx
      simp at hp
      rcases h with h | h
      · exact h hp.1.symm
      · exact h hp.2.symm
    rw [h1, Option.or_none]
  · intro x hx
    simp at hx ⊢
    rcases h with h | h
    · exact Or.inl (fun hc => h (hx.1.symm.trans hc))
    · exact Or.inr (fun hc => h (hx.2.symm.trans hc))

theorem planningValide_upsert {p : List ShiftRecord} (h : planningValide p)
    {a : String} {d : PyDate} {s o : String}
    (hs : s ∈ (["1", "2", "3", "R", "C", "M", "A"] : List String)) :
    planningValide (upsertPlanning p a d s o) := by
  intro r hr
  rcases List.mem_append.mp hr with hr | hr
  · exact h r (List.mem_filter.mp hr).1
  · simp at hr
    subst hr
    exact hs

/-! ## Lemmas on the statistics fold -/

theorem mem_work_mem_keys {x : String} (h : x ∈ (["1", "2", "3"] : List String)) :
    x ∈ statKeys := by
  simp only [statKeys]
  simp at h ⊢
  tauto

theorem sumStats_bump_of_mem {s : Stats} {x : String} (h : x ∈ statKeys) :
    sumStats (bump s x) = sumStats s + 1 := by
  simp only [statKeys] at h
  simp at h
  rcases h with h | h | h | h | h | h | h | h <;> subst h <;>
    simp [bump, sumStats] <;> omega

theorem statsFold_sum (db : DB) (rows : List ShiftRecord) :
    ∀ (s : Stats) (n : Nat),
      sumStats ((rows.foldl (statsStep db) (s, n)).1)
        = sumStats s + rows.countP (fun r => decide (r.shift ∈ statKeys)) := by
  induction rows with
  | nil => intro s n; simp
  | cons r rs ih =>
    intro s n
    rw [List.foldl_cons, List.countP_cons]
    by_cases h : r.shift ∈ statKeys
    · rw [show statsStep db (s, n) r
          = (bump s r.shift,
             if r.shift ∈ (["1", "2", "3"] : List String) ∧ est_jour_ferie db r.date
             then n + 1 else n) from if_pos h]
      rw [ih]
      rw [sumStats_bump_of_mem h]
      simp [h]
      omega
    · rw [show statsStep db (s, n) r = (s, n) from if_neg h]
      rw [ih]
      simp [h]

theorem statsFold_feries (db : DB) (rows : List ShiftRecord) :
    ∀ (s : Stats) (n : Nat),
      (rows.foldl (statsStep db) (s, n)).2
        = n + rows.countP (fun r =>
            decide (r.shift ∈ (["1", "2", "3"] : List String)) && est_jour_ferie db r.date) := by
  induction rows with
  | nil => intro s n; simp
  | cons r rs ih =>
    intro s n
    rw [List.foldl_cons, List.countP_cons]
    by_cases h : r.shift ∈ statKeys
    · rw [show statsStep db (s, n) r
          = (bump s r.shift,
             if r.shift ∈ (["1", "2", "3"] : List String) ∧ est_jour_ferie db r.date
             then n + 1 else n) from if_pos h]
      rw [ih]
      by_cases hw : r.shift ∈ (["1", "2", "3"] : List String) ∧ est_jour_ferie db r.date
      · rw [if_pos hw]
        have hb : (decide (r.shift ∈ (["1", "2", "3"] : List String))
            && est_jour_ferie db r.date) = true := by
          simp [hw.1, hw.2]
        rw [hb]
        simp
        omega
      · rw [if_neg hw]
        have hb : (decide (r.shift ∈ (["1", "2", "3"] : List String))
            && est_jour_ferie db r.date) = false := by
          rcases Decidable.not_and_iff_or_not.mp hw with hc | hc <;> simp [hc]
        rw [hb]
        simp
    · rw [show statsStep db (s, n) r = (s, n) from if_neg h]
      rw [ih]
      have hb : (decide (r.shift ∈ (["1", "2", "3"] : List String))
          && est_jour_ferie db r.date) = false := by
        have hnw : ¬ r.shift ∈ (["1", "2", "3"] : List String) :=
          fun hc => h (mem_work_mem_keys hc)
        simp [hnw]
      rw [hb]
      simp

/-! ## Lemmas on the leave fold -/

theorem congeStep_eq (code : String) (acc : List ShiftRecord × Nat) (d : PyDate) :
    congeStep code acc d =
      if pyWeekday d = 6 then (upsertPlanning acc.1 code d "R" "CONGE_DIMANCHE", acc.2)
      else (upsertPlanning acc.1 code d "C" "CONGE_PERIODE", acc.2 + 1) := rfl

theorem congeFold_lookup_notmem (code : String) (ds : List PyDate) :
    ∀ (p : List ShiftRecord) (n : Nat) (d : PyDate), d ∉ ds →
      lookupPlanning ((ds.foldl (congeStep code) (p, n)).1) code d
        = lookupPlanning p code d := by
  induction ds with
  | nil => intro p n d _; rfl
  | cons d0 ds ih =>
    intro p n d hd
    have hne : d ≠ d0 := fun hc => hd (hc ▸ List.mem_cons_self d0 ds)
    have hnm : d ∉ ds := fun hc => hd (List.mem_cons_of_mem d0 hc)
    rw [List.foldl_cons, congeStep_eq]
    by_cases hw : pyWeekday d0 = 6
    · rw [if_pos hw]
      rw [ih _ _ _ hnm]
      exact lookupPlanning_upsert_ne _ _ _ _ _ _ _ (Or.inr hne)
    · rw [if_neg hw]
      rw [ih _ _ _ hnm]
      exact lookupPlanning_upsert_ne _ _ _ _ _ _ _ (Or.inr hne)

theorem congeFold_lookup_mem (code : String) (ds : List PyDate) :
    ∀ (p : List ShiftRecord) (n : Nat) (d : PyDate), d ∈ ds →
      lookupPlanning ((ds.foldl (congeStep code) (p, n)).1) code d =
        some ⟨code, d, if pyWeekday d = 6 then "R" else "C",
              if pyWeekday d = 6 then "CONGE_DIMANCHE" else "CONGE_PERIODE"⟩ := by
  induction ds with
  | nil => intro p n d hd; exact absurd hd (List.not_mem_nil d)
  | cons d0 ds ih =>
    intro p n d hd
    rw [List.foldl_cons]
    rcases List.mem_cons.mp hd with rfl | hmem
    · by_cases hmem2 : d ∈ ds
      · exact ih _ _ _ hmem2
      · rw [congeFold_lookup_notmem code ds _ _ _ hmem2, congeStep_eq]
        by_cases hw : pyWeekday d = 6
        · rw [if_pos hw, if_pos hw, if_pos hw]
          exact lookupPlanning_upsert_self _ _ _ _ _
        · rw [if_neg hw, if_neg hw, if_neg hw]
          exact lookupPlanning_upsert_self _ _ _ _ _
    · exact ih _ _ _ hmem

theorem congeFold_count (code : String) (ds : List PyDate) :
    ∀ (p : List ShiftRecord) (n : Nat),
      (ds.foldl (congeStep code) (p, n)).2
        = n + ds.countP (fun d => decide (pyWeekday d ≠ 6)) := by
  induction ds with
  | nil => intro p n; simp
  | cons d0 ds ih =>
    intro p n
    rw [List.foldl_cons, List.countP_cons, congeStep_eq]
    by_cases hw : pyWeekday d0 = 6
    · rw [if_pos hw, ih]
      simp [hw]
    · rw [if_neg hw, ih]
      simp [hw]
      omega

theorem congeFold_valide (code : String) (ds : List PyDate) :
    ∀ (p : List ShiftRecord) (n : Nat), planningValide p →
      planningValide ((ds.foldl (congeStep code) (p, n)).1) := by
  induction ds with
  | nil => intro p n h; exact h
  | cons d0 ds ih =>
    intro p n h
    rw [List.foldl_cons, congeStep_eq]
    by_cases hw : pyWeekday d0 = 6
    · rw [if_pos hw]
      exact ih _ _ (planningValide_upsert h (by simp))
    · rw [if_neg hw]
      exact ih _ _ (planningValide_upsert h (by simp))

/-! ## Range of the rotation functions -/

theorem cycle_standard_8j_mem (k : Int) :
    cycle_standard_8j k ∈ (["1", "2", "3", "R"] : List String) := by
  unfold cycle_standard_8j
  have h8 : (k % 8).toNat < 8 := by omega
  have hall : ∀ n, n < 8 →
      ((["1", "1", "2", "2", "3", "3", "R", "R"] : List String).getD n "R")
        ∈ (["1", "2", "3", "R"] : List String) := by decide
  exact hall _ h8

theorem cycle_c_diff_mem (d : PyDate) (code : String) (db : DB) :
    cycle_c_diff d code db ∈ (["1", "2", "R"] : List String) := by
  unfold cycle_c_diff
  dsimp only
  split
  · simp
  · split
    · simp
    · split_ifs <;> simp

theorem get_shift_theorique_mem (db : DB) (code : String) (d : PyDate) :
    get_shift_theorique db code d ∈ (["1", "2", "3", "R", "-"] : List String) := by
  unfold get_shift_theorique
  split
  · simp
  · rename_i ag _
    split_ifs with h1 h2
    · have := cycle_c_diff_mem d code db
      simp at this ⊢
      tauto
    · have := cycle_standard_8j_mem
        (daysBetween ag.date_entree d + (get_decalage_standard ag.code_groupe : Int))
      simp at this ⊢
      tauto
    · simp

/-! ## Success characterisations of the write endpoints -/

theorem modifier_shift_ok_iff (db : DB) (a : String) (d : PyDate) (s : String) :
    (∃ db', modifier_shift db a d s = Except.ok db') ↔
      (strUpper s ∈ (["1", "2", "3", "R", "C", "M", "A"] : List String) ∧
       (findAgent db (strUpper a)).isSome = true) := by
  unfold modifier_shift
  by_cases hs : strUpper s ∈ (["1", "2", "3", "R", "C", "M", "A"] : List String)
  · rw [if_neg (not_not_intro hs)]
    cases hf : findAgent db (strUpper a) with
    | none =>
      constructor
      · rintro ⟨db', hdb⟩
        exact absurd hdb (by simp)
      · rintro ⟨_, hsome⟩
        simp [hf] at hsome
    | some ag =>
      constructor
      · intro _
        exact ⟨hs, by simp [hf]⟩
      · intro _
        exact ⟨_, rfl⟩
  · rw [if_pos hs]
    constructor
    · rintro ⟨db', hdb⟩
      exact absurd hdb (by simp)
    · rintro ⟨hmem, _⟩
      exact absurd hmem hs

theorem modifier_shift_ok_eq (db : DB) (a : String) (d : PyDate) (s : String) (db' : DB)
    (h : modifier_shift db a d s = Except.ok db') :
    db' = { db with
        planning := upsertPlanning db.planning (strUpper a) d (strUpper s) "MANUEL" } ∧
    strUpper s ∈ (["1", "2", "3", "R", "C", "M", "A"] : List String) := by
  unfold modifier_shift at h
  by_cases hs : strUpper s ∉ (["1", "2", "3", "R", "C", "M", "A"] : List String)
  · rw [if_pos hs] at h
    exact absurd h (by simp)
  · rw [if_neg hs] at h
    cases hf : findAgent db (strUpper a) with
    | none =>
      rw [hf] at h
      exact absurd h (by simp)
    | some ag =>
      rw [hf] at h
      injection h with h
      exact ⟨h.symm, not_not.mp hs⟩

theorem enregistrer_absence_ok_eq (db : DB) (a : String) (d : PyDate) (t : String) (db' : DB)
    (h : enregistrer_absence db a d t = Except.ok db') :
    db' = { db with
        planning := upsertPlanning db.planning (strUpper a) d (strUpper t) "ABSENCE" } ∧
    strUpper t ∈ (["C", "M", "A"] : List String) := by
  unfold enregistrer_absence at h
  by_cases hs : strUpper t ∉ (["C", "M", "A"] : List String)
  · rw [if_pos hs] at h
    exact absurd h (by simp)
  · rw [if_neg hs] at h
    cases hf : findAgent db (strUpper a) with
    | none =>
      rw [hf] at h
      exact absurd h (by simp)
    | some ag =>
      rw [hf] at h
      injection h with h
      exact ⟨h.symm, not_not.mp hs⟩

theorem create_agent_ok_eq (db : DB) (agent : AgentCreate) (db' : DB)
    (h : create_agent db agent = Except.ok db') :
    findAgent db (strUpper agent.code) = none ∧
    db' = { db with agents := db.agents ++
        [⟨strUpper agent.code, agent.nom, agent.prenom, strUpper agent.code_groupe,
          DATE_AFFECTATION_BASE, none, "actif"⟩] } := by
  unfold create_agent at h
  cases hf : findAgent db (strUpper agent.code) with
  | none =>
    rw [hf] at h
    injection h with h
    exact ⟨rfl, h.symm⟩
  | some ag =>
    rw [hf] at h
    exact absurd h (by simp)

theorem ajouter_conge_ok (db : DB) (a : String) (debut fin dc : PyDate)
    (hag : (findAgent db (strUpper a)).isSome = true)
    (hle : dateLt fin debut = false) :
    ajouter_conge db a debut fin dc = Except.ok
      { db := { db with
          conges_periode := db.conges_periode ++ [⟨strUpper a, debut, fin, dc⟩],
          planning := ((leaveRange debut fin).foldl (congeStep (strUpper a))
            (db.planning, 0)).1 },
        jours_conges := ((leaveRange debut fin).foldl (congeStep (strUpper a))
          (db.planning, 0)).2,
        duree_totale := (daysBetween debut fin).toNat + 1 } := by
  unfold ajouter_conge
  dsimp only
  cases hf : findAgent db (strUpper a) with
  | none => rw [hf] at hag; simp at hag
  | some ag =>
    dsimp only
    rw [if_neg (by simp [hle])]

theorem get_shift_theorique_standard (db : DB) (code : String) (d : PyDate) (ag : Agent)
    (hag : findAgent db code = some ag)
    (hgr : ag.code_groupe ∈ (["A", "B", "C", "D"] : List String)) :
    get_shift_theorique db code d =
      cycle_standard_8j
        (daysBetween ag.date_entree d + (get_decalage_standard ag.code_groupe : Int)) := by
  have hne : ag.code_groupe ≠ "E" := by
    rcases (by simpa using hgr : _ ∨ _ ∨ _ ∨ _) with h | h | h | h <;> simp [h]
  unfold get_shift_theorique
  rw [hag]
  dsimp only
  rw [if_neg hne, if_pos hgr]

theorem theorique_valide {db : DB} {code : String} {d : PyDate}
    (hne : get_shift_theorique db code d ≠ "-") :
    get_shift_theorique db code d ∈ (["1", "2", "3", "R", "C", "M", "A"] : List String) := by
  have hmem := get_shift_theorique_mem db code d
  simp at hmem ⊢
  rcases hmem with h | h | h | h | h
  · simp [h]
  · simp [h]
  · simp [h]
  · simp [h]
  · exact absurd h hne

theorem ajouter_conge_ok_eq (db : DB) (a : String) (debut fin dc : PyDate) (res : CongeResult)
    (h : ajouter_conge db a debut fin dc = Except.ok res) :
    res.db.planning
      = ((leaveRange debut fin).foldl (congeStep (strUpper a)) (db.planning, 0)).1 := by
  unfold ajouter_conge at h
  dsimp only at h
  cases hq : findAgent db (strUpper a) with
  | none =>
    rw [hq] at h
    exact absurd h (by simp)
  | some ag =>
    rw [hq] at h
    dsimp only at h
    by_cases hlt : dateLt fin debut = true
    · rw [if_pos hlt] at h
      exact absurd h (by simp)
    · rw [if_neg hlt] at h
      injection h with h
      rw [← h]

/-! ## The claims -/

/-- C1: effectiveShift returns a stored record symbol verbatim whatever
its origin; a manual setShift always wins for that key afterwards; for
an unknown agent without a record it returns the unresolved symbol and
leaves the store unchanged; for a known agent without a record it
returns the theoretical symbol and persists it with origin THEORIQUE
exactly when that symbol is not the unresolved one. -/
theorem C1_effective_shift_resolution (db : DB) (a : String) (d : PyDate) :
    (∀ r, lookupPlanning db.planning a d = some r →
      get_shift_effectif db a d = (r.shift, db)) ∧
    (∀ s db', modifier_shift db a d s = Except.ok db' →
      get_shift_effectif db' (strUpper a) d = (strUpper s, db')) ∧
    (lookupPlanning db.planning a d = none → findAgent db a = none →
      get_shift_effectif db a d = ("-", db)) ∧
    (lookupPlanning db.planning a d = none → (findAgent db a).isSome = true →
      (get_shift_effectif db a d).1 = get_shift_theorique db a d ∧
      (get_shift_theorique db a d ≠ "-" →
        lookupPlanning (get_shift_effectif db a d).2.planning a d =
          some ⟨a, d, get_shift_theorique db a d, "THEORIQUE"⟩) ∧
      (get_shift_theorique db a d = "-" → (get_shift_effectif db a d).2 = db)) := by
  refine ⟨?_, ?_, ?_, ?_⟩
  · intro r h
    unfold get_shift_effectif
    rw [h]
  · intro s db' h
    obtain ⟨hdb, _⟩ := modifier_shift_ok_eq db a d s db' h
    subst hdb
    unfold get_shift_effectif
    rw [show lookupPlanning
        ({ db with planning := upsertPlanning db.planning (strUpper a) d (strUpper s) "MANUEL" }
          : DB).planning (strUpper a) d
        = some ⟨strUpper a, d, strUpper s, "MANUEL"⟩ from
      lookupPlanning_upsert_self db.planning (strUpper a) d (strUpper s) "MANUEL"]
  · intro h1 h2
    have hth : get_shift_theorique db a d = "-" := by
      unfold get_shift_theorique
      rw [h2]
    unfold get_shift_effectif
    rw [h1]
    simp [hth]
  · intro h1 _
    unfold get_shift_effectif
    rw [h1]
    by_cases hst : get_shift_theorique db a d = "-" <;>
      simp [hst, lookupPlanning_upsert_self]

/-- C2: for agents of the four standard groups the theoretical shift is
the fixed 8-day pattern indexed at (daysSinceEntry + offset) mod 8 with
offsets A:0, B:2, C:4, D:6, the day difference being a possibly
negative integer; the assignment is 8-periodic in the day count. -/
theorem C2_standard_rotation (db : DB) (a : String) (d : PyDate) (ag : Agent)
    (hag : findAgent db a = some ag)
    (hgr : ag.code_groupe ∈ (["A", "B", "C", "D"] : List String)) :
    get_shift_theorique db a d =
      (["1", "1", "2", "2", "3", "3", "R", "R"] : List String).getD
        (((daysBetween ag.date_entree d
            + (get_decalage_standard ag.code_groupe : Int)) % 8).toNat) "R" ∧
    (∀ d' : PyDate, (toDays d' : Int) = (toDays d : Int) + 8 →
      get_shift_theorique db a d' = get_shift_theorique db a d) ∧
    get_decalage_standard "A" = 0 ∧ get_decalage_standard "B" = 2 ∧
    get_decalage_standard "C" = 4 ∧ get_decalage_standard "D" = 6 := by
  refine ⟨?_, ?_, by decide, by decide, by decide, by decide⟩
  · rw [get_shift_theorique_standard db a d ag hag hgr]
    rfl
  · intro d' hd
    rw [get_shift_theorique_standard db a d ag hag hgr,
        get_shift_theorique_standard db a d' ag hag hgr]
    have hidx : ((daysBetween ag.date_entree d'
          + (get_decalage_standard ag.code_groupe : Int)) % 8).toNat
        = ((daysBetween ag.date_entree d
          + (get_decalage_standard ag.code_groupe : Int)) % 8).toNat := by
      unfold daysBetween
      omega
    unfold cycle_standard_8j
    rw [hidx]

/-- C3 counterexample: for a known agent over November 2025 with an
empty planning table, the per-symbol counters of the statistics sum to
0, not to the 30 days of the month — the statistics read only persisted
records and resolve nothing. -/
theorem C3_counterexample :
    calculer_stats_agent dbSample "AG1" 11 2025 =
      Except.ok (calculer_stats_agent_core dbSample "AG1" 11 2025) ∧
    sumStats (calculer_stats_agent_core dbSample "AG1" 11 2025).stats = 0 ∧
    joursMois 2025 11 = 30 ∧
    sumStats (calculer_stats_agent_core dbSample "AG1" 11 2025).stats ≠ joursMois 2025 11 :=
  ⟨rfl, by decide, by decide, by decide⟩

/-- C3 amended: the per-symbol counters of statsForAgent sum to the
number of ShiftRecords persisted for that agent in the month range
whose symbol is in the counter alphabet — the month length only when
every day happens to have a stored record. -/
theorem C3_sum_of_counters (db : DB) (a : String) (mois annee : Nat) (res : StatsResult)
    (h : calculer_stats_agent db a mois annee = Except.ok res) :
    sumStats res.stats =
      (statsRows db a mois annee).countP (fun r => decide (r.shift ∈ statKeys)) := by
  unfold calculer_stats_agent at h
  by_cases hm : 1 ≤ mois ∧ mois ≤ 12
  · rw [if_pos hm] at h
    injection h with h
    subst h
    unfold calculer_stats_agent_core
    dsimp only
    rw [statsFold_sum]
    simp [statsInit, sumStats]
  · rw [if_neg hm] at h
    exact absurd h (by simp)

/-- C4: applyLeave on a known agent and an ordered span writes, for
each day of the inclusive range, a rest record with origin
CONGE_DIMANCHE on Sundays and a leave record with origin CONGE_PERIODE
otherwise, and returns the non-Sunday count and the inclusive length;
on the span 2025-11-03 to 2025-11-09 it yields 6 leave records, 1 rest
record, 6 marked days and total length 7. -/
theorem C4_apply_leave (db : DB) (a : String) (debut fin dc : PyDate)
    (hag : (findAgent db (strUpper a)).isSome = true)
    (hle : dateLe debut fin = true) :
    (∃ res, ajouter_conge db a debut fin dc = Except.ok res ∧
      res.duree_totale = (daysBetween debut fin).toNat + 1 ∧
      res.jours_conges = (leaveRange debut fin).countP (fun x => decide (pyWeekday x ≠ 6)) ∧
      ∀ d ∈ leaveRange debut fin,
        lookupPlanning res.db.planning (strUpper a) d =
          some ⟨strUpper a, d, if pyWeekday d = 6 then "R" else "C",
                if pyWeekday d = 6 then "CONGE_DIMANCHE" else "CONGE_PERIODE"⟩) ∧
    ((ajouter_conge dbSample "AG1" ⟨2025, 11, 3⟩ ⟨2025, 11, 9⟩ ⟨2025, 11, 1⟩).toOption.map
       (fun r => (r.jours_conges, r.duree_totale,
         r.db.planning.countP (fun x => x.shift == "C"),
         r.db.planning.countP (fun x => x.shift == "R"))) = some (6, 7, 6, 1)) := by
  constructor
  · have hlt : dateLt fin debut = false := by
      unfold dateLe at hle
      unfold dateLt
      simp at hle ⊢
      omega
    refine ⟨_, ajouter_conge_ok db a debut fin dc hag hlt, rfl, ?_, ?_⟩
    · dsimp only
      rw [congeFold_count]
      simp
    · intro d hd
      dsimp only
      exact congeFold_lookup_mem (strUpper a) (leaveRange debut fin) db.planning 0 d hd
  · decide

/-- C5: in the per-agent statistics a day is counted holiday-worked
exactly when its counted symbol is a work shift and the date is a
holiday, and totalOperational adds the holiday-worked count to the
work-shift counts except for group E, where it is the work-shift sum
alone. -/
theorem C5_total_operational (db : DB) (a : String) (mois annee : Nat) (res : StatsResult)
    (h : calculer_stats_agent db a mois annee = Except.ok res) :
    res.feries_travailles = (statsRows db a mois annee).countP
        (fun r => decide (r.shift ∈ (["1", "2", "3"] : List String))
          && est_jour_ferie db r.date) ∧
    (res.groupe ≠ some "E" → res.total_operationnels =
        res.stats.s1 + res.stats.s2 + res.stats.s3 + res.feries_travailles) ∧
    (res.groupe = some "E" → res.total_operationnels =
        res.stats.s1 + res.stats.s2 + res.stats.s3) := by
  unfold calculer_stats_agent at h
  by_cases hm : 1 ≤ mois ∧ mois ≤ 12
  · rw [if_pos hm] at h
    injection h with h
    subst h
    unfold calculer_stats_agent_core
    dsimp only
    refine ⟨?_, ?_, ?_⟩
    · rw [statsFold_feries]
      simp
    · intro hg
      rw [if_neg hg]
    · intro hg
      rw [if_pos hg]
  · rw [if_neg hm] at h
    exact absurd h (by simp)

/-- C6 counterexample: the unresolved symbol belongs to the 8-symbol
alphabet of the claim and the agent exists, yet setShift rejects it
with a request-level error — the accepted set is the 7 persistable
symbols only. -/
theorem C6_counterexample :
    modifier_shift dbSample "AG1" ⟨2025, 11, 4⟩ "-" = Except.error "Shift invalide" ∧
    "-" ∈ (["1", "2", "3", "R", "C", "M", "A", "-"] : List String) ∧
    (findAgent dbSample "AG1").isSome = true :=
  ⟨rfl, by decide, by decide⟩

/-- C6 amended: setShift succeeds — upserting the record with the
uppercased symbol and origin MANUEL — exactly when the uppercased
symbol is one of the seven symbols 1, 2, 3, R, C, M, A (the unresolved
symbol is rejected) and the agent exists; otherwise it fails with a
request-level error and produces no new state. -/
theorem C6_set_shift_validation (db : DB) (a : String) (d : PyDate) (s : String) :
    ((∃ db', modifier_shift db a d s = Except.ok db') ↔
      (strUpper s ∈ (["1", "2", "3", "R", "C", "M", "A"] : List String) ∧
       (findAgent db (strUpper a)).isSome = true)) ∧
    (∀ db', modifier_shift db a d s = Except.ok db' →
      db' = { db with
        planning := upsertPlanning db.planning (strUpper a) d (strUpper s) "MANUEL" }) :=
  ⟨modifier_shift_ok_iff db a d s, fun db' h => (modifier_shift_ok_eq db a d s db' h).1⟩

/-- C7: the global statistics aggregation skips an agent whose
statistics computation fails and returns exactly the sums over the
remaining agents; the loop itself is total, so one failure never
aborts the aggregation. -/
theorem C7_partial_failure_tolerance (f : String → Except String StatsResult)
    (l1 l2 : List String) (a e : String) (hf : f a = Except.error e) :
    statsGlobalAux f (l1 ++ a :: l2) = statsGlobalAux f (l1 ++ l2) ∧
    ∀ (db : DB) (mois annee : Nat), get_stats_global db mois annee =
      statsGlobalAux (fun c => calculer_stats_agent db c mois annee) (activeAgents db) := by
  constructor
  · unfold statsGlobalAux
    rw [List.foldl_append, List.foldl_append, List.foldl_cons]
    simp only [hf]
  · intro db mois annee
    rfl

/-- C8: starting from a planning table whose symbols all lie in the
seven persistable symbols, every write path — cache fill, manual
setShift, recordAbsence, leave expansion — preserves that invariant:
the unresolved symbol is never persisted. -/
theorem C8_no_unresolved_persisted (db : DB) (h : planningValide db.planning) :
    (∀ a d, planningValide ((get_shift_effectif db a d).2.planning)) ∧
    (∀ a d s db', modifier_shift db a d s = Except.ok db' → planningValide db'.planning) ∧
    (∀ a d t db', enregistrer_absence db a d t = Except.ok db' →
      planningValide db'.planning) ∧
    (∀ a debut fin dc res, ajouter_conge db a debut fin dc = Except.ok res →
      planningValide res.db.planning) := by
  refine ⟨?_, ?_, ?_, ?_⟩
  · intro a d
    unfold get_shift_effectif
    cases hl : lookupPlanning db.planning a d with
    | some r => exact h
    | none =>
      dsimp only
      by_cases hst : get_shift_theorique db a d = "-"
      · rw [if_neg (not_not_intro hst)]
        exact h
      · rw [if_pos hst]
        exact planningValide_upsert h (theorique_valide hst)
  · intro a d s db' hok
    obtain ⟨hdb, hmem⟩ := modifier_shift_ok_eq db a d s db' hok
    subst hdb
    exact planningValide_upsert h hmem
  · intro a d t db' hok
    obtain ⟨hdb, hmem⟩ := enregistrer_absence_ok_eq db a d t db' hok
    subst hdb
    apply planningValide_upsert h
    simp at hmem ⊢
    tauto
  · intro a debut fin dc res hok
    rw [ajouter_conge_ok_eq db a debut fin dc res hok]
    exact congeFold_valide (strUpper a) (leaveRange debut fin) db.planning 0 h

/-- C9: both enrollment paths — single creation and spreadsheet import
of a new agent — store the fixed entry date 2025-11-01, with no input
field for a different one; hence two standard-group agents stored with
that entry date and the same group get identical theoretical shifts on
every date. -/
theorem C9_fixed_entry_date :
    (∀ (db : DB) (agent : AgentCreate) (db' : DB), create_agent db agent = Except.ok db' →
      findAgent db' (strUpper agent.code) =
        some ⟨strUpper agent.code, agent.nom, agent.prenom, strUpper agent.code_groupe,
              DATE_AFFECTATION_BASE, none, "actif"⟩) ∧
    (∀ (db : DB) (code nom prenom groupe : String),
      findAgent db (strUpper code) = none →
      (import_excel_row db code nom prenom groupe).2 = true →
      findAgent (import_excel_row db code nom prenom groupe).1 (strUpper code) =
        some ⟨strUpper code, nom, prenom, strUpper groupe,
              DATE_AFFECTATION_BASE, none, "actif"⟩) ∧
    (∀ (db : DB) (a b : String) (d : PyDate) (aga agb : Agent),
      findAgent db a = some aga → findAgent db b = some agb →
      aga.date_entree = DATE_AFFECTATION_BASE → agb.date_entree = DATE_AFFECTATION_BASE →
      aga.code_groupe = agb.code_groupe →
      aga.code_groupe ∈ (["A", "B", "C", "D"] : List String) →
      get_shift_theorique db a d = get_shift_theorique db b d) := by
  refine ⟨?_, ?_, ?_⟩
  · intro db agent db' hok
    obtain ⟨hnone, hdb⟩ := create_agent_ok_eq db agent db' hok
    subst hdb
    unfold findAgent at hnone ⊢
    dsimp only
    rw [List.find?_append, hnone]
    simp
  · intro db code nom prenom groupe hnone himp
    unfold import_excel_row at himp ⊢
    dsimp only at himp ⊢
    by_cases hg : strUpper code = "" ∨ nom = "" ∨ prenom = "" ∨
        strUpper groupe ∉ (["A", "B", "C", "D", "E"] : List String)
    · rw [if_pos hg] at himp
      simp at himp
    · rw [if_neg hg] at himp ⊢
      rw [hnone] at himp ⊢
      dsimp only
      have hnone' : db.agents.find? (fun x => x.code == strUpper code) = none := hnone
      unfold findAgent
      dsimp only
      rw [List.find?_append, hnone']
      simp
  · intro db a b d aga agb ha hb hda hdb2 hgg hmem
    rw [get_shift_theorique_standard db a d aga ha hmem,
        get_shift_theorique_standard db b d agb hb (hgg ▸ hmem)]
    rw [hda, hdb2, hgg]

/-- C10: on every weekday, the two first-ranked active members of
group E receive complementary shifts — one gets the morning shift
exactly when the other gets the afternoon shift, whatever the parities
of the ISO week and of the day — so they never share a weekday
shift. -/
theorem C10_group_e_complementary (db : DB) (d : PyDate) (a b : String) (rest : List String)
    (hmem : groupeEActifs db = a :: b :: rest) (hab : a ≠ b)
    (hwk : pyWeekday d < 5) :
    (cycle_c_diff d a db = "1" ↔ cycle_c_diff d b db = "2") ∧
    (cycle_c_diff d a db = "2" ↔ cycle_c_diff d b db = "1") ∧
    cycle_c_diff d a db ≠ cycle_c_diff d b db := by
  have h5 : ¬ 5 ≤ pyWeekday d := by omega
  have hia : listIndex (groupeEActifs db) a = some 0 := by
    rw [hmem]
    simp [listIndex]
  have hib : listIndex (groupeEActifs db) b = some 1 := by
    rw [hmem]
    simp [listIndex, hab]
  have ea : cycle_c_diff d a db =
      (if isoWeek d % 2 ≠ 0 then (if pyWeekday d % 2 = 0 then "1" else "2")
       else (if pyWeekday d % 2 = 0 then "2" else "1")) := by
    unfold cycle_c_diff
    dsimp only
    rw [if_neg h5, hia]
    rfl
  have eb : cycle_c_diff d b db =
      (if isoWeek d % 2 ≠ 0 then (if pyWeekday d % 2 = 0 then "2" else "1")
       else (if pyWeekday d % 2 = 0 then "1" else "2")) := by
    unfold cycle_c_diff
    dsimp only
    rw [if_neg h5, hib]
    rfl
  rw [ea, eb]
  by_cases hw : isoWeek d % 2 = 0 <;> by_cases hj : pyWeekday d % 2 = 0 <;>
    simp [hw, hj]

/-! ## Witnesses -/

/-- Witness for C1: a stored absence is returned verbatim, an unknown
agent yields the unresolved symbol without a write, a known agent gets
the theoretical value, and a manual edit wins afterwards. -/
theorem C1_witness :
    get_shift_effectif dbRec "AG1" ⟨2025, 11, 5⟩ = ("M", dbRec) ∧
    get_shift_effectif dbSample "ZZZ" ⟨2025, 11, 5⟩ = ("-", dbSample) ∧
    (get_shift_effectif dbSample "AG1" ⟨2025, 11, 5⟩).1 =
      get_shift_theorique dbSample "AG1" ⟨2025, 11, 5⟩ ∧
    (∃ db', modifier_shift dbRec "AG1" ⟨2025, 11, 5⟩ "2" = Except.ok db' ∧
      get_shift_effectif db' "AG1" ⟨2025, 11, 5⟩ = ("2", db')) := by
  refine ⟨?_, ?_, ?_, ?_⟩
  · exact (C1_effective_shift_resolution dbRec "AG1" ⟨2025, 11, 5⟩).1
      ⟨"AG1", ⟨2025, 11, 5⟩, "M", "ABSENCE"⟩ (by decide)
  · exact (C1_effective_shift_resolution dbSample "ZZZ" ⟨2025, 11, 5⟩).2.2.1
      (by decide) (by decide)
  · exact ((C1_effective_shift_resolution dbSample "AG1" ⟨2025, 11, 5⟩).2.2.2
      (by decide) (by decide)).1
  · cases hm : modifier_shift dbRec "AG1" ⟨2025, 11, 5⟩ "2" with
    | error e =>
      have h2 : (modifier_shift dbRec "AG1" ⟨2025, 11, 5⟩ "2").toOption.isSome = true := by
        decide
      rw [hm] at h2
      simp [Except.toOption] at h2
    | ok db' =>
      refine ⟨db', rfl, ?_⟩
      have hc := (C1_effective_shift_resolution dbRec "AG1" ⟨2025, 11, 5⟩).2.1 "2" db' hm
      rw [show strUpper "AG1" = "AG1" from by decide,
          show strUpper "2" = "2" from by decide] at hc
      exact hc

/-- Witness for C2 at a date before the entry date, with the
periodicity instance eight days later. -/
theorem C2_witness :
    get_shift_theorique dbSample "AG1" ⟨2025, 10, 30⟩ =
      (["1", "1", "2", "2", "3", "3", "R", "R"] : List String).getD
        (((daysBetween agentA1.date_entree ⟨2025, 10, 30⟩
            + (get_decalage_standard agentA1.code_groupe : Int)) % 8).toNat) "R" ∧
    get_shift_theorique dbSample "AG1" ⟨2025, 11, 7⟩ =
      get_shift_theorique dbSample "AG1" ⟨2025, 10, 30⟩ := by
  have h := C2_standard_rotation dbSample "AG1" ⟨2025, 10, 30⟩ agentA1 (by decide) (by decide)
  exact ⟨h.1, h.2.1 ⟨2025, 11, 7⟩ (by decide)⟩

/-- Witness for the amended C3 on a state with one stored record. -/
theorem C3_witness :
    sumStats (calculer_stats_agent_core dbRec "AG1" 11 2025).stats =
      (statsRows dbRec "AG1" 11 2025).countP (fun r => decide (r.shift ∈ statKeys)) :=
  C3_sum_of_counters dbRec "AG1" 11 2025 _ rfl

/-- Witness for C4 on the span 2025-11-03 to 2025-11-09. -/
theorem C4_witness :
    ∃ res, ajouter_conge dbSample "AG1" ⟨2025, 11, 3⟩ ⟨2025, 11, 9⟩ ⟨2025, 11, 1⟩ =
        Except.ok res ∧
      res.duree_totale = 7 ∧ res.jours_conges = 6 := by
  obtain ⟨⟨res, h1, h2, h3, _⟩, _⟩ :=
    C4_apply_leave dbSample "AG1" ⟨2025, 11, 3⟩ ⟨2025, 11, 9⟩ ⟨2025, 11, 1⟩
      (by decide) (by decide)
  refine ⟨res, h1, ?_, ?_⟩
  · rw [h2]
    decide
  · rw [h3]
    decide

/-- Witness for C5 for a standard-group agent and a group E agent. -/
theorem C5_witness :
    (calculer_stats_agent_core dbRec "AG1" 11 2025).feries_travailles =
      (statsRows dbRec "AG1" 11 2025).countP
        (fun r => decide (r.shift ∈ (["1", "2", "3"] : List String))
          && est_jour_ferie dbRec r.date) ∧
    (calculer_stats_agent_core dbRec "AG1" 11 2025).total_operationnels =
      (calculer_stats_agent_core dbRec "AG1" 11 2025).stats.s1 +
      (calculer_stats_agent_core dbRec "AG1" 11 2025).stats.s2 +
      (calculer_stats_agent_core dbRec "AG1" 11 2025).stats.s3 +
      (calculer_stats_agent_core dbRec "AG1" 11 2025).feries_travailles ∧
    (calculer_stats_agent_core dbRec "EA1" 11 2025).total_operationnels =
      (calculer_stats_agent_core dbRec "EA1" 11 2025).stats.s1 +
      (calculer_stats_agent_core dbRec "EA1" 11 2025).stats.s2 +
      (calculer_stats_agent_core dbRec "EA1" 11 2025).stats.s3 :=
  ⟨(C5_total_operational dbRec "AG1" 11 2025 _ rfl).1,
   (C5_total_operational dbRec "AG1" 11 2025 _ rfl).2.1 (by decide),
   (C5_total_operational dbRec "EA1" 11 2025 _ rfl).2.2 (by decide)⟩

/-- Witness for the amended C6: a lowercase valid symbol is accepted
for an existing agent addressed in lowercase. -/
theorem C6_witness :
    ∃ db', modifier_shift dbSample "ag1" ⟨2025, 11, 4⟩ "r" = Except.ok db' :=
  (C6_set_shift_validation dbSample "ag1" ⟨2025, 11, 4⟩ "r").1.mpr ⟨by decide, by decide⟩

/-- Witness for C7: three agents, the middle one failing. -/
theorem C7_witness :
    statsGlobalAux f0 (["OK1"] ++ "BAD" :: ["OK2"]) =
      statsGlobalAux f0 (["OK1"] ++ ["OK2"]) :=
  (C7_partial_failure_tolerance f0 ["OK1"] ["OK2"] "BAD" "panne" rfl).1

/-- Witness for C8 on a valid concrete state. -/
theorem C8_witness :
    planningValide ((get_shift_effectif dbRec "AG1" ⟨2025, 11, 6⟩).2.planning) ∧
    ∀ db', modifier_shift dbRec "AG1" ⟨2025, 11, 6⟩ "3" = Except.ok db' →
      planningValide db'.planning := by
  have h : planningValide dbRec.planning := by
    unfold planningValide
    decide
  exact ⟨(C8_no_unresolved_persisted dbRec h).1 "AG1" ⟨2025, 11, 6⟩,
         fun db' hok =>
           (C8_no_unresolved_persisted dbRec h).2.1 "AG1" ⟨2025, 11, 6⟩ "3" db' hok⟩

/-- Witness for C9: creating a lowercase-coded agent stores the base
entry date. -/
theorem C9_witness :
    ∃ db', create_agent dbSample ⟨"zx1", "Nom", "Pre", "b"⟩ = Except.ok db' ∧
      findAgent db' "ZX1" =
        some ⟨"ZX1", "Nom", "Pre", "B", DATE_AFFECTATION_BASE, none, "actif"⟩ := by
  cases hm : create_agent dbSample ⟨"zx1", "Nom", "Pre", "b"⟩ with
  | error e =>
    have h2 : (create_agent dbSample ⟨"zx1", "Nom", "Pre", "b"⟩).toOption.isSome = true := by
      decide
    rw [hm] at h2
    simp [Except.toOption] at h2
  | ok db' =>
    refine ⟨db', rfl, ?_⟩
    have hc := C9_fixed_entry_date.1 dbSample ⟨"zx1", "Nom", "Pre", "b"⟩ db' hm
    simpa [show strUpper "zx1" = "ZX1" from by decide,
           show strUpper "b" = "B" from by decide] using hc

/-- Witness for C10 on Monday 2025-11-03 with the two sample group E
agents. -/
theorem C10_witness :
    (cycle_c_diff ⟨2025, 11, 3⟩ "EA1" dbSample = "1" ↔
      cycle_c_diff ⟨2025, 11, 3⟩ "EB2" dbSample = "2") ∧
    cycle_c_diff ⟨2025, 11, 3⟩ "EA1" dbSample ≠ cycle_c_diff ⟨2025, 11, 3⟩ "EB2" dbSample := by
  have h := C10_group_e_complementary dbSample ⟨2025, 11, 3⟩ "EA1" "EB2" []
    (by decide) (by decide) (by decide)
  exact ⟨h.1, h.2.2⟩

